import Mathlib

/-!
Verification of the greenlight movie-persistence module: a shallow
embedding of the `data` package (Movie entity, MovieModel store
operations, ValidateMovie) together with the validator helpers and the
Runtime codec it depends on, and proofs of the specified properties.

Go machine integers (`int32`, `int64`) are modelled as `Int`; none of
the verified properties depends on overflow, and the backend rejects
rather than wraps on column overflow. Go `time.Time` values are opaque
here (modelled as `Nat` tags); `time.Now().Year()` becomes an explicit
`currentYear` parameter.
-/

/-! ## Validator -/

/-- Modelled from the spec: the `internal/validator` package is not in the
excerpted source. A Validator accumulates named field-level error
messages; modelled as an association list from field to message. -/
structure Validator where
  Errors : List (String × String)
deriving DecidableEq, Repr

/-- Modelled from the spec: records `message` under `field` only if no
message is already recorded for that field (first failure per field wins). -/
def Validator.AddError (v : Validator) (field message : String) : Validator :=
  match v.Errors.lookup field with
  | some _ => v
  | none => ⟨(field, message) :: v.Errors⟩

/-- Modelled from the spec: if `ok` is false, record `message` under
`field` via `AddError`; otherwise leave the validator unchanged. -/
def Validator.Check (v : Validator) (ok : Bool) (field message : String) : Validator :=
  if ok then v else v.AddError field message

/-- Modelled from the spec: `valid()` is true iff no field has a recorded
error. -/
def Validator.Valid (v : Validator) : Bool := v.Errors.isEmpty

/-- The empty validator (no recorded errors). -/
def Validator.empty : Validator := ⟨[]⟩

namespace validator

/-- Modelled from the spec: `uniqueStrings(seq)` is true iff no two
elements of the sequence are equal under string equality
(`validator.Unique` in the source ecosystem, called by `ValidateMovie`). -/
def Unique : List String → Bool
  | [] => true
  | x :: rest => !(rest.contains x) && Unique rest

/-- Modelled from the spec: `noEmptyStrings(seq)` is true iff no element
is the empty string (`validator.CheckForEmptyStrings` in the source). -/
def CheckForEmptyStrings (xs : List String) : Bool :=
  xs.all (fun s => !(s == ""))

end validator

/-! ## Runtime codec -/

/-- The single error the Runtime decoder reports (`FormatError` in the
spec taxonomy). -/
inductive FormatError where
  | invalidRuntimeFormat
deriving DecidableEq, Repr

/-- Strips `pat` from the front of `l`: `some rest` iff `l = pat ++ rest`. -/
def stripFront : List Char → List Char → Option (List Char)
  | [], l => some l
  | _ :: _, [] => none
  | p :: ps, a :: as => if a = p then stripFront ps as else none

/-- Strips `pat` from the back of `l`: `some front` iff `l = front ++ pat`. -/
def stripBack (pat l : List Char) : Option (List Char) :=
  (stripFront pat.reverse l.reverse).map List.reverse

/-- Modelled from the spec: recognise a quoted string, yielding the quoted
content (the Runtime codec source is not in the excerpt; the spec fixes
the grammar as a quoted `"<N> mins"` literal). -/
def unquoteChars : List Char → Option (List Char)
  | a :: rest => if a = '"' then stripBack ['"'] rest else none
  | [] => none

/-- A decimal digit's value, else `none`. -/
def digitVal? (c : Char) : Option Nat :=
  if '0' ≤ c ∧ c ≤ '9' then some (c.toNat - '0'.toNat) else none

/-- Accumulate decimal digits; fails on the first non-digit. -/
def parseNatGo (acc : Nat) : List Char → Option Nat
  | [] => some acc
  | c :: cs =>
    match digitVal? c with
    | none => none
    | some d => parseNatGo (acc * 10 + d) cs

/-- A non-empty all-digit character list as a natural number. -/
def parseNatChars : List Char → Option Nat
  | [] => none
  | l => parseNatGo 0 l

/-- Modelled from the spec: what "parses as `<integer>`" means for the
quoted content — an optional minus sign followed by decimal digits. -/
def parseIntChars : List Char → Option Int
  | '-' :: rest => (parseNatChars rest).map (fun n => -(n : Int))
  | l => (parseNatChars l).map (fun n => (n : Int))

/-- Modelled from the spec: Encode renders the wrapped integer as a quoted
string `"<N> mins"`. -/
def encodeRuntime (n : Int) : String :=
  "\"" ++ toString n ++ " mins\""

/-- Modelled from the spec: Decode accepts a quoted string matching
`"<N> mins"`; fails with a FormatError if the value is not a quoted
string, or the quoted content does not parse as `<integer> mins`, or the
integer is negative. -/
def decodeRuntime (s : String) : Except FormatError Int :=
  match unquoteChars s.data with
  | none => .error .invalidRuntimeFormat
  | some inner =>
    match stripBack (" mins".data) inner with
    | none => .error .invalidRuntimeFormat
    | some numChars =>
      match parseIntChars numChars with
      | none => .error .invalidRuntimeFormat
      | some n => if n < 0 then .error .invalidRuntimeFormat else .ok n

/-! ## Movie entity and validation (from `src/unnamed/part_000`) -/

/-- The `Movie` struct. `Genres` is a Go slice that may be `nil`
(distinct from an empty slice), modelled as `Option (List String)` with
`none` for `nil`. `Runtime` is the integer-minutes scalar. -/
structure Movie where
  ID : Int
  CreatedAt : Nat
  Title : String
  Year : Int
  Runtime : Int
  Genres : Option (List String)
  Version : Int
deriving DecidableEq, Repr

/-- The genres slice as iterated/measured by Go builtins: a `nil` slice
has length 0 and no elements. -/
def Movie.genresList (m : Movie) : List String := m.Genres.getD []

/-- `ValidateMovie` from the source, with `time.Now().Year()` made an
explicit `currentYear` parameter. The checks run in source order. -/
def ValidateMovie (v : Validator) (movie : Movie) (currentYear : Int) : Validator :=
  let v := v.Check (movie.Title != "") "title" "cannot be empty"
  let v := v.Check (decide (movie.Title.utf8ByteSize < 500)) "title" "must be under 500 characters"
  let v := v.Check (movie.Year != 0) "year" "cannpt be empty"
  let v := v.Check (decide (1888 < movie.Year) && decide (movie.Year ≤ currentYear)) "year" "must be between 1888 and today"
  let v := v.Check (decide (0 < movie.Runtime)) "runtime" "must be a positive integer"
  let v := v.Check movie.Genres.isSome "genres" "cannot be empty"
  let v := v.Check (validator.CheckForEmptyStrings movie.genresList) "genres" "cannot be empty"
  let v := v.Check (decide (0 < movie.genresList.length) && decide (movie.genresList.length ≤ 5)) "genres" "must have between 1 and 5 genres"
  v.Check (validator.Unique movie.genresList) "genres" "must be unique"

/-! ## Movie store (from `src/unnamed/part_000`)

The relational backend is modelled as a list of rows; each store
operation records the parameterized queries it issues (its round trips)
and may be handed a driver-failure oracle `fail` that makes the backend
answer a given query with an opaque driver error, as a real driver can. -/

/-- A persisted row of the `movies` table. -/
structure MovieRow where
  id : Int
  created_at : Nat
  title : String
  year : Int
  runtime : Int
  genres : List String
  version : Int
deriving DecidableEq, Repr

/-- The backend state: the `movies` table. -/
abbrev Database := List MovieRow

/-- The parameterized statements the store issues, one constructor per
SQL string in the source. `version` is absent from `updateMovies`: the
source statement writes `version = version + 1` and matches only on id. -/
inductive Query where
  | selectMovies (id : Int)
  | updateMovies (title : String) (year : Int) (runtime : Int) (genres : List String) (id : Int)
  | deleteMovies (id : Int)
deriving DecidableEq, Repr

/-- Errors surfaced by the store layer: the package sentinel
`ErrRecordNotFound`, the driver sentinel `sql.ErrNoRows`, and opaque
driver failures. -/
inductive GoError where
  | ErrRecordNotFound
  | ErrNoRows
  | Driver (msg : String)
deriving DecidableEq, Repr

/-- A backend that never injects a driver failure. -/
def noFail : Query → Option String := fun _ => none

/-- Semantics of `SELECT ... FROM movies WHERE id = $1` (primary-key
lookup; `QueryRow` takes the first matching row). -/
def selectMovies (db : Database) (id : Int) : Option MovieRow :=
  List.find? (fun r => r.id == id) db

/-- Semantics of `UPDATE movies SET title=$1, year=$2, runtime=$3,
genres=$4, version = version + 1 WHERE id=$5 RETURNING version`: rewrite
every matching row, and return the new version of the first matching row
(none when no row matches, which `Scan` reports as `sql.ErrNoRows`). -/
def updateMovies (db : Database) (title : String) (year runtime : Int)
    (genres : List String) (id : Int) : Database × Option Int :=
  (db.map (fun r =>
      if r.id == id then
        { r with title := title, year := year, runtime := runtime,
                 genres := genres, version := r.version + 1 }
      else r),
   (List.find? (fun r => r.id == id) db).map (fun r => r.version + 1))

/-- Semantics of `DELETE FROM movies WHERE id = $1`: the remaining table
and the affected-row count. -/
def deleteMovies (db : Database) (id : Int) : Database × Nat :=
  (db.filter (fun r => !(r.id == id)), db.countP (fun r => r.id == id))

/-- A scanned row as the `Get` code materialises it into a `Movie`
(`pq.Array` scans the non-NULL `genres` column into a non-nil slice). -/
def MovieRow.toMovie (r : MovieRow) : Movie :=
  { ID := r.id, CreatedAt := r.created_at, Title := r.title, Year := r.year,
    Runtime := r.runtime, Genres := some r.genres, Version := r.version }

/-- The genres value the store sends to the backend for a movie
(`pq.Array(movie.Genres)`; a `nil` slice is stored as an empty array). -/
def Movie.genresArray (m : Movie) : List String := m.Genres.getD []

/-- `MovieModel.Get`: rejects negative ids locally with
`ErrRecordNotFound` before any round trip; otherwise issues the select
and maps `sql.ErrNoRows` to `ErrRecordNotFound`, passing any other
driver error through unchanged.  Returns the result together with the
list of queries issued. -/
def MovieModel.Get (fail : Query → Option String) (db : Database) (id : Int) :
    Except GoError Movie × List Query :=
  if id < 0 then
    (.error .ErrRecordNotFound, [])
  else
    let q := Query.selectMovies id
    match fail q with
    | some msg => (.error (.Driver msg), [q])
    | none =>
      match selectMovies db id with
      | none => (.error .ErrRecordNotFound, [q])
      | some r => (.ok r.toMovie, [q])

/-- `MovieModel.Update`: issues the update statement (constrained only on
id) and scans the returned version into the passed movie; the `Scan`
error — `sql.ErrNoRows` when no row matched, or a driver error — is
returned unchanged.  Returns (result, movie after the call, new backend
state, queries issued). -/
def MovieModel.Update (fail : Query → Option String) (db : Database) (movie : Movie) :
    Except GoError Unit × Movie × Database × List Query :=
  let q := Query.updateMovies movie.Title movie.Year movie.Runtime movie.genresArray movie.ID
  match fail q with
  | some msg => (.error (.Driver msg), movie, db, [q])
  | none =>
    match updateMovies db movie.Title movie.Year movie.Runtime movie.genresArray movie.ID with
    | (db2, some newVersion) => (.ok (), { movie with Version := newVersion }, db2, [q])
    | (db2, none) => (.error .ErrNoRows, movie, db2, [q])

/-- `MovieModel.Delete`: rejects negative ids locally with
`ErrRecordNotFound`; otherwise issues the delete, passes driver errors
through, and maps a zero affected-row count to `ErrRecordNotFound`.
Returns (result, new backend state, queries issued). -/
def MovieModel.Delete (fail : Query → Option String) (db : Database) (id : Int) :
    Except GoError Unit × Database × List Query :=
  if id < 0 then
    (.error .ErrRecordNotFound, db, [])
  else
    let q := Query.deleteMovies id
    match fail q with
    | some msg => (.error (.Driver msg), db, [q])
    | none =>
      let (db2, rowsAffected) := deleteMovies db id
      if rowsAffected == 0 then (.error .ErrRecordNotFound, db2, [q])
      else (.ok (), db2, [q])

/-! ## Validator lemmas -/

theorem String.beq_false_symm {a b : String} (h : (a == b) = false) : (b == a) = false := by
  rw [beq_eq_false_iff_ne] at h ⊢
  exact Ne.symm h

theorem lookup_AddError_ne (v : Validator) (f2 msg f : String) (h : (f == f2) = false) :
    ((v.AddError f2 msg).Errors).lookup f = v.Errors.lookup f := by
  unfold Validator.AddError
  cases hl : v.Errors.lookup f2 with
  | some m => rfl
  | none => simp [List.lookup_cons, h]

theorem lookup_AddError_self (v : Validator) (f msg : String) :
    ((v.AddError f msg).Errors).lookup f = some ((v.Errors.lookup f).getD msg) := by
  unfold Validator.AddError
  cases hl : v.Errors.lookup f with
  | some m => simp [hl]
  | none => simp [hl, List.lookup_cons]

theorem lookup_Check_ne (v : Validator) (ok : Bool) (f2 msg f : String) (h : (f == f2) = false) :
    ((v.Check ok f2 msg).Errors).lookup f = v.Errors.lookup f := by
  unfold Validator.Check
  cases ok with
  | true => rfl
  | false => simpa using lookup_AddError_ne v f2 msg f h

theorem lookup_Check_self (v : Validator) (ok : Bool) (f msg : String) :
    ((v.Check ok f msg).Errors).lookup f =
      if ok then v.Errors.lookup f else some ((v.Errors.lookup f).getD msg) := by
  unfold Validator.Check
  cases ok with
  | true => simp
  | false => simpa using lookup_AddError_self v f msg

/-- One `check` invocation: its `ok` argument and the field/message pair. -/
structure CheckCall where
  ok : Bool
  field : String
  message : String

/-- Run a sequence of `check` calls against a starting validator. -/
def runChecksFrom (v : Validator) (calls : List CheckCall) : Validator :=
  calls.foldl (fun v c => v.Check c.ok c.field c.message) v

/-- Run a sequence of `check` calls against a fresh validator. -/
def runChecks (calls : List CheckCall) : Validator :=
  runChecksFrom Validator.empty calls

theorem lookup_runChecksFrom (calls : List CheckCall) (v : Validator) (f : String) :
    ((runChecksFrom v calls).Errors).lookup f =
      Option.or (v.Errors.lookup f)
        ((calls.find? (fun c => !c.ok && (c.field == f))).map (fun c => c.message)) := by
  induction calls generalizing v with
  | nil => simp [runChecksFrom]
  | cons c rest ih =>
    obtain ⟨cok, cf, cm⟩ := c
    show ((runChecksFrom (v.Check cok cf cm) rest).Errors).lookup f = _
    rw [ih]
    cases cok with
    | true =>
      rw [List.find?_cons_of_neg _ (by simp)]
      rfl
    | false =>
      cases hf : (cf == f) with
      | false =>
        rw [List.find?_cons_of_neg _ (by simp [hf])]
        rw [show v.Check false cf cm = v.AddError cf cm from rfl]
        rw [lookup_AddError_ne v cf cm f (String.beq_false_symm hf)]
      | true =>
        have hfe : cf = f := eq_of_beq hf
        subst hfe
        rw [List.find?_cons_of_pos _ (by simp)]
        rw [show v.Check false cf cm = v.AddError cf cm from rfl]
        rw [lookup_AddError_self v cf cm]
        cases hv : v.Errors.lookup cf <;> simp [hv, Option.or]

theorem countP_eq_zero_of_lookup_none (es : List (String × String)) (f : String)
    (h : es.lookup f = none) : es.countP (fun e => e.1 == f) = 0 := by
  induction es with
  | nil => rfl
  | cons e rest ih =>
    obtain ⟨k, m⟩ := e
    rw [List.lookup_cons] at h
    cases hk : (f == k) with
    | true => rw [hk] at h; cases h
    | false =>
      rw [hk] at h
      rw [List.countP_cons]
      simp [String.beq_false_symm hk, ih h]

theorem countP_runChecksFrom_le_one (calls : List CheckCall) (v : Validator)
    (hv : ∀ g, v.Errors.countP (fun e => e.1 == g) ≤ 1) (f : String) :
    ((runChecksFrom v calls).Errors).countP (fun e => e.1 == f) ≤ 1 := by
  induction calls generalizing v hv with
  | nil => exact hv f
  | cons c rest ih =>
    obtain ⟨cok, cf, cm⟩ := c
    apply ih
    intro g
    show List.countP (fun e => e.1 == g) ((v.Check cok cf cm).Errors) ≤ 1
    cases cok with
    | true => exact hv g
    | false =>
      show List.countP (fun e => e.1 == g) ((v.AddError cf cm).Errors) ≤ 1
      cases hl : v.Errors.lookup cf with
      | some m =>
        have h2 : v.AddError cf cm = v := by
          unfold Validator.AddError
          rw [hl]
        rw [h2]
        exact hv g
      | none =>
        have h2 : v.AddError cf cm = ⟨(cf, cm) :: v.Errors⟩ := by
          unfold Validator.AddError
          rw [hl]
        rw [h2]
        show List.countP (fun e => e.1 == g) ((cf, cm) :: v.Errors) ≤ 1
        rw [List.countP_cons]
        cases hg : (cf == g) with
        | false => simpa [hg] using hv g
        | true =>
          have hfg : cf = g := eq_of_beq hg
          subst hfg
          rw [countP_eq_zero_of_lookup_none v.Errors cf hl]
          simp

theorem Valid_iff_lookup_none (v : Validator) :
    v.Valid = true ↔ ∀ f, v.Errors.lookup f = none := by
  unfold Validator.Valid
  rw [List.isEmpty_iff]
  constructor
  · intro h f
    rw [h]
    rfl
  · intro h
    cases he : v.Errors with
    | nil => rfl
    | cons e rest =>
      exfalso
      obtain ⟨k, m⟩ := e
      have hk := h k
      rw [he, List.lookup_cons] at hk
      simp at hk

/-! ## Runtime codec lemmas -/

theorem stripFront_eq_some (pat : List Char) :
    ∀ l rest : List Char, stripFront pat l = some rest ↔ l = pat ++ rest := by
  induction pat with
  | nil =>
    intro l rest
    simp [stripFront]
  | cons p ps ih =>
    intro l rest
    cases l with
    | nil => simp [stripFront]
    | cons a as =>
      by_cases h : a = p
      · subst h
        simp [stripFront, ih]
      · simp [stripFront, h]

theorem stripBack_eq_some (pat l front : List Char) :
    stripBack pat l = some front ↔ l = front ++ pat := by
  unfold stripBack
  rw [Option.map_eq_some']
  constructor
  · rintro ⟨rest, hr, hrev⟩
    rw [stripFront_eq_some] at hr
    have hl : l = (pat.reverse ++ rest).reverse := by
      rw [← hr, List.reverse_reverse]
    rw [hl, List.reverse_append, List.reverse_reverse, hrev]
  · intro h
    refine ⟨front.reverse, ?_, by simp⟩
    rw [stripFront_eq_some, h]
    simp

theorem unquoteChars_eq_some (l inner : List Char) :
    unquoteChars l = some inner ↔ l = '"' :: inner ++ ['"'] := by
  cases l with
  | nil => simp [unquoteChars]
  | cons a rest =>
    by_cases h : a = '"'
    · subst h
      simp [unquoteChars, stripBack_eq_some]
    · simp [unquoteChars, h]

/-- C7: Runtime codec round-trip: encoding a Runtime of 102 minutes and
then decoding the encoded string yields 102; and every input string that
is not a quoted string whose content is an integer (non-negative)
followed by " mins" decodes to a FormatError. -/
theorem c7_runtime_roundtrip_and_malformed_fails :
    decodeRuntime (encodeRuntime 102) = .ok 102 ∧
    ∀ s : String,
      (∀ (n : Int) (numChars : List Char),
        ¬(0 ≤ n ∧ s.data = '"' :: numChars ++ (" mins".data ++ ['"']) ∧
          parseIntChars numChars = some n)) →
      decodeRuntime s = .error .invalidRuntimeFormat := by
  constructor
  · rfl
  · intro s H
    unfold decodeRuntime
    cases h1 : unquoteChars s.data with
    | none => rfl
    | some inner =>
      cases h2 : stripBack (" mins".data) inner with
      | none => simp [h2]
      | some numChars =>
        cases h3 : parseIntChars numChars with
        | none => simp [h2, h3]
        | some n =>
          by_cases hneg : n < 0
          · simp [h2, h3, hneg]
          · exfalso
            apply H n numChars
            refine ⟨by omega, ?_, h3⟩
            rw [unquoteChars_eq_some] at h1
            rw [stripBack_eq_some] at h2
            rw [h1, h2]
            simp

/-- Witness for C7: the round trip at 102 together with the concrete
malformed input "x" (not a quoted string) failing with FormatError. -/
theorem c7_witness :
    decodeRuntime (encodeRuntime 102) = .ok 102 ∧
    decodeRuntime "x" = .error .invalidRuntimeFormat := by
  refine ⟨c7_runtime_roundtrip_and_malformed_fails.1,
          c7_runtime_roundtrip_and_malformed_fails.2 "x" ?_⟩
  intro n numChars h
  have h2 := h.2.1
  rw [show "x".data = ['x'] from rfl] at h2
  simp at h2

/-! ## Store lemmas and claims -/

theorem find?_update_map (db : Database) (id : Int) (r : MovieRow) (t : String)
    (y rt : Int) (g : List String)
    (h : List.find? (fun x => x.id == id) db = some r) :
    List.find? (fun x => x.id == id)
      (db.map (fun x =>
        if x.id == id then
          { x with title := t, year := y, runtime := rt, genres := g,
                   version := x.version + 1 }
        else x)) =
      some { r with title := t, year := y, runtime := rt, genres := g,
                    version := r.version + 1 } := by
  rw [List.find?_map]
  have hp : ((fun x : MovieRow => x.id == id) ∘ (fun x : MovieRow =>
      if x.id == id then
        { x with title := t, year := y, runtime := rt, genres := g,
                 version := x.version + 1 }
      else x)) = (fun x : MovieRow => x.id == id) := by
    funext x
    by_cases hx : x.id = id <;> simp [hx]
  rw [hp, h]
  have hr := List.find?_some h
  simp only [] at hr
  simp [eq_of_beq hr]

/-- C1: a successful update (id matches an existing row) increments the
stored row's version by exactly 1 and leaves the row's id and created_at
unchanged; on the passed entity only the Version field is rewritten (to
the new row version), all other fields keeping their values. -/
theorem c1_update_frame (db : Database) (movie : Movie) (r : MovieRow)
    (h : selectMovies db movie.ID = some r) :
    (MovieModel.Update noFail db movie).1 = .ok () ∧
    (MovieModel.Update noFail db movie).2.1 = { movie with Version := r.version + 1 } ∧
    selectMovies (MovieModel.Update noFail db movie).2.2.1 movie.ID =
      some { r with title := movie.Title, year := movie.Year, runtime := movie.Runtime,
                    genres := movie.genresArray, version := r.version + 1 } := by
  unfold selectMovies at h
  have key : MovieModel.Update noFail db movie =
      (.ok (), { movie with Version := r.version + 1 },
       db.map (fun x =>
         if x.id == movie.ID then
           { x with title := movie.Title, year := movie.Year, runtime := movie.Runtime,
                    genres := movie.genresArray, version := x.version + 1 }
         else x),
       [Query.updateMovies movie.Title movie.Year movie.Runtime movie.genresArray movie.ID]) := by
    unfold MovieModel.Update noFail updateMovies
    rw [h]
    rfl
  rw [key]
  refine ⟨rfl, rfl, ?_⟩
  unfold selectMovies
  exact find?_update_map db movie.ID r movie.Title movie.Year movie.Runtime movie.genresArray h

/-- Witness for C1 at a concrete row and movie. -/
theorem c1_witness :
    (MovieModel.Update noFail [⟨1, 7, "t", 2000, 100, ["a"], 3⟩]
        ⟨1, 9, "u", 2001, 101, some ["b"], 3⟩).1 = .ok () ∧
    (MovieModel.Update noFail [⟨1, 7, "t", 2000, 100, ["a"], 3⟩]
        ⟨1, 9, "u", 2001, 101, some ["b"], 3⟩).2.1 = ⟨1, 9, "u", 2001, 101, some ["b"], 4⟩ ∧
    selectMovies (MovieModel.Update noFail [⟨1, 7, "t", 2000, 100, ["a"], 3⟩]
        ⟨1, 9, "u", 2001, 101, some ["b"], 3⟩).2.2.1 1 = some ⟨1, 7, "u", 2001, 101, ["b"], 4⟩ := by
  have h := c1_update_frame [⟨1, 7, "t", 2000, 100, ["a"], 3⟩]
      ⟨1, 9, "u", 2001, 101, some ["b"], 3⟩ ⟨1, 7, "t", 2000, 100, ["a"], 3⟩ rfl
  exact ⟨h.1, h.2.1, h.2.2⟩

/-- C2 counterexample: an update whose id matches no row fails with the
backend's raw `sql.ErrNoRows`, not with NotFound, and an injected driver
failure escapes `Get` unclassified — backend-specific errors do cross
the store boundary. -/
theorem c2_counterexample_update_leaks_norows :
    (MovieModel.Update noFail [] ⟨1, 9, "u", 2001, 101, some ["b"], 1⟩).1 = .error .ErrNoRows ∧
    ¬((MovieModel.Update noFail [] ⟨1, 9, "u", 2001, 101, some ["b"], 1⟩).1 =
        .error .ErrRecordNotFound) ∧
    (MovieModel.Get (fun q => if q = .selectMovies 1 then some "connection reset" else none)
        [] 1).1 = .error (.Driver "connection reset") := by
  refine ⟨rfl, ?_, rfl⟩
  intro hcontra
  have h0 : (MovieModel.Update noFail [] ⟨1, 9, "u", 2001, 101, some ["b"], 1⟩).1 =
      .error .ErrNoRows := rfl
  rw [h0] at hcontra
  exact absurd (Except.error.inj hcontra) (by decide)

/-- C2 amended: `get` and `delete` classify their zero-row outcomes as
NotFound (with an honest backend they fail only with NotFound), but
`update` performs no classification: when its id matches no row it
returns the backend's `sql.ErrNoRows` unchanged. -/
theorem c2_amended_classification :
    (∀ (db : Database) (id : Int),
      (MovieModel.Get noFail db id).1 = .error .ErrRecordNotFound ∨
      ∃ mv, (MovieModel.Get noFail db id).1 = .ok mv) ∧
    (∀ (db : Database) (id : Int),
      (MovieModel.Delete noFail db id).1 = .error .ErrRecordNotFound ∨
      (MovieModel.Delete noFail db id).1 = .ok ()) ∧
    (∀ (db : Database) (m : Movie),
      selectMovies db m.ID = none →
      (MovieModel.Update noFail db m).1 = .error .ErrNoRows) := by
  refine ⟨?_, ?_, ?_⟩
  · intro db id
    unfold MovieModel.Get noFail
    by_cases hid : id < 0
    · rw [if_pos hid]
      exact Or.inl rfl
    · rw [if_neg hid]
      cases hs : selectMovies db id with
      | none => exact Or.inl (by simp [hs])
      | some r => exact Or.inr ⟨r.toMovie, by simp [hs]⟩
  · intro db id
    unfold MovieModel.Delete noFail deleteMovies
    by_cases hid : id < 0
    · rw [if_pos hid]
      exact Or.inl rfl
    · rw [if_neg hid]
      by_cases hc : db.countP (fun r => r.id == id) = 0
      · exact Or.inl (by simp [hc])
      · exact Or.inr (by simp [hc])
  · intro db m h
    unfold selectMovies at h
    unfold MovieModel.Update noFail updateMovies
    rw [h]
    rfl

/-- Witness for C2's amended claim: the zero-row update at a concrete
movie and empty table fails with the raw no-rows error. -/
theorem c2_amended_witness :
    (MovieModel.Update noFail [] ⟨2, 9, "u", 2001, 101, some ["b"], 1⟩).1 =
      .error .ErrNoRows :=
  c2_amended_classification.2.2 [] ⟨2, 9, "u", 2001, 101, some ["b"], 1⟩ rfl

/-- C3: update is independent of the passed movie's Version: two movies
differing only in Version produce the same issued query, the same backend
state, and the same outcome; on success the returned entities are equal
as well (no compare-and-swap is performed). -/
theorem c3_update_independent_of_version (fail : Query → Option String) (db : Database)
    (m : Movie) (v : Int) :
    (MovieModel.Update fail db m).2.2.2 =
      (MovieModel.Update fail db { m with Version := v }).2.2.2 ∧
    (MovieModel.Update fail db m).2.2.1 =
      (MovieModel.Update fail db { m with Version := v }).2.2.1 ∧
    (MovieModel.Update fail db m).1 =
      (MovieModel.Update fail db { m with Version := v }).1 ∧
    ((MovieModel.Update fail db m).1 = .ok () →
      (MovieModel.Update fail db m).2.1 =
        (MovieModel.Update fail db { m with Version := v }).2.1) := by
  obtain ⟨mid, mca, mt, my, mr, mg, mver⟩ := m
  unfold MovieModel.Update updateMovies
  dsimp only [Movie.genresArray]
  cases hf : fail (Query.updateMovies mt my mr (mg.getD []) mid) with
  | some msg => exact ⟨rfl, rfl, rfl, fun hcontra => absurd hcontra (by simp)⟩
  | none =>
    cases hu : List.find? (fun r => r.id == mid) db with
    | none => simp [hu]
    | some r => simp [hu]

/-- Witness for C3 at a concrete backend state and movie pair differing
only in Version (3 vs 99). -/
theorem c3_witness :
    (MovieModel.Update noFail [⟨1, 7, "t", 2000, 100, ["a"], 3⟩]
        ⟨1, 9, "u", 2001, 101, some ["b"], 3⟩).2.2.2 =
      (MovieModel.Update noFail [⟨1, 7, "t", 2000, 100, ["a"], 3⟩]
        ⟨1, 9, "u", 2001, 101, some ["b"], 99⟩).2.2.2 ∧
    (MovieModel.Update noFail [⟨1, 7, "t", 2000, 100, ["a"], 3⟩]
        ⟨1, 9, "u", 2001, 101, some ["b"], 3⟩).2.2.1 =
      (MovieModel.Update noFail [⟨1, 7, "t", 2000, 100, ["a"], 3⟩]
        ⟨1, 9, "u", 2001, 101, some ["b"], 99⟩).2.2.1 ∧
    (MovieModel.Update noFail [⟨1, 7, "t", 2000, 100, ["a"], 3⟩]
        ⟨1, 9, "u", 2001, 101, some ["b"], 3⟩).1 =
      (MovieModel.Update noFail [⟨1, 7, "t", 2000, 100, ["a"], 3⟩]
        ⟨1, 9, "u", 2001, 101, some ["b"], 99⟩).1 ∧
    (MovieModel.Update noFail [⟨1, 7, "t", 2000, 100, ["a"], 3⟩]
        ⟨1, 9, "u", 2001, 101, some ["b"], 3⟩).2.1 =
      (MovieModel.Update noFail [⟨1, 7, "t", 2000, 100, ["a"], 3⟩]
        ⟨1, 9, "u", 2001, 101, some ["b"], 99⟩).2.1 := by
  have h := c3_update_independent_of_version noFail [⟨1, 7, "t", 2000, 100, ["a"], 3⟩]
      ⟨1, 9, "u", 2001, 101, some ["b"], 3⟩ 99
  exact ⟨h.1, h.2.1, h.2.2.1, h.2.2.2 rfl⟩

/-- C4: delete rejects negative ids locally with NotFound (no round
trip); on a non-negative id it fails with NotFound exactly when zero rows
are affected, and on an existing id it removes the matching row and
returns success. -/
theorem c4_delete_semantics (db : Database) (id : Int) :
    (id < 0 → MovieModel.Delete noFail db id = (.error .ErrRecordNotFound, db, [])) ∧
    (0 ≤ id → (∀ r ∈ db, r.id ≠ id) →
      (MovieModel.Delete noFail db id).1 = .error .ErrRecordNotFound) ∧
    (0 ≤ id → (∃ r ∈ db, r.id = id) →
      (MovieModel.Delete noFail db id).1 = .ok () ∧
      (MovieModel.Delete noFail db id).2.1 = db.filter (fun r => !(r.id == id))) := by
  refine ⟨?_, ?_, ?_⟩
  · intro h
    unfold MovieModel.Delete
    rw [if_pos h]
  · intro h0 hnone
    have hc : db.countP (fun r => r.id == id) = 0 :=
      List.countP_eq_zero.mpr (fun r hr => by simpa using hnone r hr)
    unfold MovieModel.Delete noFail deleteMovies
    rw [if_neg (not_lt.mpr h0)]
    simp [hc]
  · rintro h0 ⟨r, hr, hid⟩
    have hc : db.countP (fun x => x.id == id) ≠ 0 := by
      have hpos : 0 < db.countP (fun x => x.id == id) :=
        List.countP_pos_iff.mpr ⟨r, hr, by simp [hid]⟩
      omega
    unfold MovieModel.Delete noFail deleteMovies
    rw [if_neg (not_lt.mpr h0)]
    constructor <;> simp [hc]

/-- Witness for C4: concrete negative-id, missing-id and existing-id
deletes against a one-row table. -/
theorem c4_witness :
    MovieModel.Delete noFail [⟨1, 7, "t", 2000, 100, ["a"], 3⟩] (-1) =
      (.error .ErrRecordNotFound, [⟨1, 7, "t", 2000, 100, ["a"], 3⟩], []) ∧
    (MovieModel.Delete noFail [⟨1, 7, "t", 2000, 100, ["a"], 3⟩] 2).1 =
      .error .ErrRecordNotFound ∧
    (MovieModel.Delete noFail [⟨1, 7, "t", 2000, 100, ["a"], 3⟩] 1).1 = .ok () ∧
    (MovieModel.Delete noFail [⟨1, 7, "t", 2000, 100, ["a"], 3⟩] 1).2.1 = [] := by
  have hA := (c4_delete_semantics [⟨1, 7, "t", 2000, 100, ["a"], 3⟩] (-1)).1 (by decide)
  have hB := (c4_delete_semantics [⟨1, 7, "t", 2000, 100, ["a"], 3⟩] 2).2.1 (by decide)
      (by intro r hr; simp at hr; rw [hr]; decide)
  have hC := (c4_delete_semantics [⟨1, 7, "t", 2000, 100, ["a"], 3⟩] 1).2.2 (by decide)
      ⟨⟨1, 7, "t", 2000, 100, ["a"], 3⟩, by simp, rfl⟩
  exact ⟨hA, hB, hC.1, hC.2⟩

/-- C5: for every negative id, `Get` fails with NotFound without issuing
any backend query, whatever the backend state or driver behaviour. -/
theorem c5_get_negative_local (fail : Query → Option String) (db : Database) (id : Int)
    (h : id < 0) :
    MovieModel.Get fail db id = (.error .ErrRecordNotFound, []) := by
  unfold MovieModel.Get
  rw [if_pos h]

/-- Witness for C5 at id = -1: NotFound and an empty query trace. -/
theorem c5_witness : MovieModel.Get noFail [] (-1) = (.error .ErrRecordNotFound, []) :=
  c5_get_negative_local noFail [] (-1) (by decide)

/-- C10: id 0 is not caught by the local fast path: both `Get 0` and
`Delete 0` issue exactly one backend query, and NotFound at id 0 arises
exactly from a zero-row backend result. -/
theorem c10_zero_id_round_trip (db : Database) :
    (MovieModel.Get noFail db 0).2 = [Query.selectMovies 0] ∧
    (MovieModel.Delete noFail db 0).2.2 = [Query.deleteMovies 0] ∧
    ((MovieModel.Get noFail db 0).1 = .error .ErrRecordNotFound ↔ selectMovies db 0 = none) ∧
    ((MovieModel.Delete noFail db 0).1 = .error .ErrRecordNotFound ↔
      db.countP (fun r => r.id == 0) = 0) := by
  have h0 : ¬((0 : Int) < 0) := by decide
  refine ⟨?_, ?_, ?_, ?_⟩
  · unfold MovieModel.Get noFail
    rw [if_neg h0]
    cases hs : selectMovies db 0 <;> rfl
  · unfold MovieModel.Delete noFail deleteMovies
    rw [if_neg h0]
    by_cases hc : db.countP (fun r => r.id == 0) = 0 <;> simp [hc]
  · unfold MovieModel.Get noFail
    rw [if_neg h0]
    cases hs : selectMovies db 0 with
    | none => simp [hs]
    | some r => simp [hs]
  · unfold MovieModel.Delete noFail deleteMovies
    rw [if_neg h0]
    by_cases hc : db.countP (fun r => r.id == 0) = 0 <;> simp [hc]

/-- Witness for C10 at the empty table: `Get 0` fails with NotFound via
the zero-row result, and `Delete 0` issued its query. -/
theorem c10_witness :
    (MovieModel.Get noFail [] 0).1 = .error .ErrRecordNotFound ∧
    (MovieModel.Delete noFail [] 0).2.2 = [Query.deleteMovies 0] :=
  ⟨(c10_zero_id_round_trip []).2.2.1.mpr rfl, (c10_zero_id_round_trip []).2.1⟩

/-! ## Validation claims -/

/-- `ValidateMovie` is the run of its nine `check` calls in source order. -/
theorem validateMovie_eq_runChecksFrom (v : Validator) (m : Movie) (cy : Int) :
    ValidateMovie v m cy = runChecksFrom v
      [⟨m.Title != "", "title", "cannot be empty"⟩,
       ⟨decide (m.Title.utf8ByteSize < 500), "title", "must be under 500 characters"⟩,
       ⟨m.Year != 0, "year", "cannpt be empty"⟩,
       ⟨decide (1888 < m.Year) && decide (m.Year ≤ cy), "year", "must be between 1888 and today"⟩,
       ⟨decide (0 < m.Runtime), "runtime", "must be a positive integer"⟩,
       ⟨m.Genres.isSome, "genres", "cannot be empty"⟩,
       ⟨validator.CheckForEmptyStrings m.genresList, "genres", "cannot be empty"⟩,
       ⟨decide (0 < m.genresList.length) && decide (m.genresList.length ≤ 5), "genres",
        "must have between 1 and 5 genres"⟩,
       ⟨validator.Unique m.genresList, "genres", "must be unique"⟩] := rfl

/-- C6: over any sequence of `check` calls on a fresh validator, the
message recorded for a field is exactly the message of the first failing
check on that field (so later failing checks on the same field are
suppressed), at most one message is ever recorded per field, and
`valid()` is true iff no field has a recorded error. -/
theorem c6_validator_first_failure_wins (calls : List CheckCall) (f : String) :
    ((runChecks calls).Errors).lookup f =
      ((calls.find? (fun c => !c.ok && (c.field == f))).map (fun c => c.message)) ∧
    ((runChecks calls).Errors).countP (fun e => e.1 == f) ≤ 1 ∧
    ((runChecks calls).Valid = true ↔ ∀ g, ((runChecks calls).Errors).lookup g = none) := by
  refine ⟨?_, ?_, ?_⟩
  · rw [runChecks, lookup_runChecksFrom]
    rfl
  · exact countP_runChecksFrom_le_one calls Validator.empty (fun g => by simp [Validator.empty]) f
  · exact Valid_iff_lookup_none _

/-- Witness for C6: two failing checks on the same field record only the
first message. -/
theorem c6_witness :
    ((runChecks [⟨false, "year", "first"⟩, ⟨false, "year", "second"⟩,
        ⟨true, "title", "x"⟩]).Errors).lookup "year" = some "first" := by
  rw [(c6_validator_first_failure_wins
      [⟨false, "year", "first"⟩, ⟨false, "year", "second"⟩, ⟨true, "title", "x"⟩] "year").1]
  rfl

/-- C8: the year range check passes for all years in (1888, currentYear]
and fails for year = 1888 or year > currentYear, in which case an error
is recorded on field "year". -/
theorem c8_year_range_check (m : Movie) (cy : Int) :
    (1888 < m.Year ∧ m.Year ≤ cy →
      ((ValidateMovie Validator.empty m cy).Errors).lookup "year" = none) ∧
    ((m.Year = 1888 ∨ cy < m.Year) →
      ∃ msg, ((ValidateMovie Validator.empty m cy).Errors).lookup "year" = some msg) := by
  constructor
  · rintro ⟨h1, h2⟩
    rw [validateMovie_eq_runChecksFrom, lookup_runChecksFrom]
    have hz : (m.Year != 0) = true := by
      simp only [bne_iff_ne, ne_eq]
      omega
    have hr : (decide (1888 < m.Year) && decide (m.Year ≤ cy)) = true := by
      simp [h1, h2]
    simp [List.find?_cons, hz, hr, Validator.empty]
  · intro hy
    rw [validateMovie_eq_runChecksFrom, lookup_runChecksFrom]
    by_cases hz : m.Year = 0
    · have hz2 : (m.Year != 0) = false := by simp [hz]
      refine ⟨"cannpt be empty", ?_⟩
      simp [List.find?_cons, hz2, Validator.empty]
    · have hz2 : (m.Year != 0) = true := by simp [hz]
      have hr : (decide (1888 < m.Year) && decide (m.Year ≤ cy)) = false := by
        rcases hy with h | h
        · simp [h]
        · have hcy : ¬(m.Year ≤ cy) := by omega
          simp [hcy]
      refine ⟨"must be between 1888 and today", ?_⟩
      simp [List.find?_cons, hz2, hr, Validator.empty]

/-- Witness for C8: year 1997 passes against currentYear 2026, year 1888
records an error on "year". -/
theorem c8_witness :
    ((ValidateMovie Validator.empty ⟨1, 0, "T", 1997, 100, some ["a"], 1⟩ 2026).Errors).lookup
      "year" = none ∧
    ∃ msg, ((ValidateMovie Validator.empty ⟨1, 0, "T", 1888, 100, some ["a"], 1⟩
      2026).Errors).lookup "year" = some msg :=
  ⟨(c8_year_range_check ⟨1, 0, "T", 1997, 100, some ["a"], 1⟩ 2026).1 (by decide),
   (c8_year_range_check ⟨1, 0, "T", 1888, 100, some ["a"], 1⟩ 2026).2 (Or.inl (by decide))⟩

/-- `Unique` is the `Nodup` predicate on the list. -/
theorem Unique_eq_true_iff_Nodup (xs : List String) :
    validator.Unique xs = true ↔ xs.Nodup := by
  induction xs with
  | nil => simp [validator.Unique]
  | cons x rest ih => simp [validator.Unique, ih, List.nodup_cons]

/-- If no error is recorded on "genres", the genres passed the uniqueness
check (the last check `ValidateMovie` runs). -/
theorem genres_none_implies_unique (v : Validator) (m : Movie) (cy : Int)
    (h : ((ValidateMovie v m cy).Errors).lookup "genres" = none) :
    validator.Unique m.genresList = true := by
  simp only [ValidateMovie] at h
  cases hu : validator.Unique m.genresList
  · exfalso
    rw [hu] at h
    rw [lookup_Check_self] at h
    simp at h
  · rfl

/-- C9: a genre sequence with two equal elements makes `Unique` return
false, and `ValidateMovie` records an error on field "genres". -/
theorem c9_duplicate_genres (m : Movie) (cy : Int) (seq : List String)
    (hg : m.Genres = some seq) (hdup : ¬ seq.Nodup) :
    validator.Unique seq = false ∧
    ∃ msg, ((ValidateMovie Validator.empty m cy).Errors).lookup "genres" = some msg := by
  have huniq : validator.Unique seq = false := by
    cases h : validator.Unique seq
    · rfl
    · exact absurd ((Unique_eq_true_iff_Nodup seq).mp h) hdup
  have hml : m.genresList = seq := by
    rw [Movie.genresList, hg]
    rfl
  refine ⟨huniq, ?_⟩
  cases hl : ((ValidateMovie Validator.empty m cy).Errors).lookup "genres" with
  | none =>
    exact absurd (genres_none_implies_unique _ _ _ hl) (by rw [hml, huniq]; simp)
  | some msg => exact ⟨msg, rfl⟩

/-- Witness for C9 at the duplicate genre list ["a", "a"]. -/
theorem c9_witness :
    validator.Unique ["a", "a"] = false ∧
    ∃ msg, ((ValidateMovie Validator.empty ⟨1, 0, "T", 1997, 100, some ["a", "a"], 1⟩
      2026).Errors).lookup "genres" = some msg :=
  c9_duplicate_genres ⟨1, 0, "T", 1997, 100, some ["a", "a"], 1⟩ 2026 ["a", "a"] rfl (by decide)
